import Mathlib

/-!
# record_multichannel: a shallow embedding of `src/backend/record_multichannel.cpp`

The program records a 4-channel interleaved float stream through PortAudio and
writes every channel to its own raw file (`channel_0.raw` ... `channel_3.raw`).

Modelling conventions.

* A `float` is carried as its object representation: the `sizeof(float)` bytes
  that `write(reinterpret_cast<const char*>(&in[i]), sizeof(float))` copies.
* A `std::ofstream` is its open flag, its error flag and the bytes written
  through it since it was opened (the content of the file).  The file system is
  assumed to accept every write on an open stream.
* `unsigned long` arithmetic is arithmetic modulo `2^64` (LP64).
* Reading `in[i]` and selecting `channelFiles[c]` use `Option`-returning
  indexing; an access outside the object makes the whole call `none`.
* The audio thread is sequentialised: the callbacks of a run happen between
  `Pa_StartStream` and `Pa_StopStream`.
-/

namespace RecordMultichannel

/-! ## Constants -/

/-- Sample rate in Hz (`#define SAMPLE_RATE 44100`). -/
def SAMPLE_RATE : Nat := 44100

/-- Number of channels (`#define NUM_CHANNELS 4`). -/
def NUM_CHANNELS : Nat := 4

/-- Frames per buffer (`#define FRAMES_PER_BUFFER 256`). -/
def FRAMES_PER_BUFFER : Nat := 256

/-- Value of `sizeof(float)`. -/
def SIZEOF_FLOAT : Nat := 4

/-- Number of values of an `unsigned long`. -/
def ULONG_MODULUS : Nat := 2 ^ 64

/-- PortAudio callback result `paContinue`. -/
def paContinue : Int := 0

/-- PortAudio error code `paNoError`. -/
def paNoError : Int := 0

/-- PortAudio device index `paNoDevice`. -/
def paNoDevice : Int := -1

/-! ## Samples and output streams -/

/-- One byte. -/
abbrev Byte := Fin 256

/-- Object representation of one `float`, in memory order. -/
structure Sample where
  b0 : Byte
  b1 : Byte
  b2 : Byte
  b3 : Byte
deriving DecidableEq, Repr

/-- The bytes found at the address of a sample. -/
def Sample.bytes (s : Sample) : List Byte := [s.b0, s.b1, s.b2, s.b3]

/-- State of one `std::ofstream`. -/
structure OFStream where
  isOpen : Bool
  fail : Bool
  data : List Byte
deriving DecidableEq, Repr

/-- A default-constructed `std::ofstream`: no file attached. -/
def OFStream.init : OFStream := { isOpen := false, fail := false, data := [] }

/-- Member `open(fileName, std::ios::binary)`; `ok` is the answer of the file
system.  Opening truncates the file.  Opening a stream that is already open
fails. -/
def OFStream.open (s : OFStream) (ok : Bool) : OFStream :=
  if s.isOpen then { s with fail := true }
  else if ok then { isOpen := true, fail := false, data := [] }
  else { s with fail := true }

/-- Member `is_open()`. -/
def OFStream.is_open (s : OFStream) : Bool := s.isOpen

/-- Member `write(src, n)`: appends the first `n` bytes found at `src` when the
stream is open and in a good state, and otherwise only raises the error flag. -/
def OFStream.write (s : OFStream) (src : List Byte) (n : Nat) : OFStream :=
  if s.isOpen && !s.fail then { s with data := s.data ++ src.take n }
  else { s with fail := true }

/-- Member `close()`. -/
def OFStream.close (s : OFStream) : OFStream :=
  if s.isOpen then { s with isOpen := false } else { s with fail := true }

/-! ## The callback -/

/-- State threaded through the loops of `audioCallback`: the global array
`channelFiles` and, as a ghost record, one entry `(channel, index)` for every
`write` call, giving the `channelFiles` index written and the `in` index read. -/
structure CallbackState where
  channelFiles : List OFStream
  accesses : List (Nat × Nat)
deriving DecidableEq, Repr

/-- Body of the inner loop (line 27):
`channelFiles[channel].write((const char*)&in[frame * NUM_CHANNELS + channel], sizeof(float))`. -/
def writeSample (inp : List Sample) (frame channel : Nat) (st : CallbackState) :
    Option CallbackState :=
  let idx := (frame * NUM_CHANNELS + channel) % ULONG_MODULUS
  match inp[idx]? with
  | none => none
  | some sample =>
    match st.channelFiles[channel]? with
    | none => none
    | some file =>
      some { channelFiles := st.channelFiles.set channel (file.write sample.bytes SIZEOF_FLOAT),
             accesses := st.accesses ++ [(channel, idx)] }

/-- Inner loop (lines 25-28): `for (int channel = 0; channel < NUM_CHANNELS; ++channel)`. -/
def channelLoop (inp : List Sample) (frame : Nat) (st : CallbackState) : Option CallbackState :=
  (List.range NUM_CHANNELS).foldlM (fun st channel => writeSample inp frame channel st) st

/-- Outer loop (lines 24-29):
`for (unsigned long frame = 0; frame < framesPerBuffer; ++frame)`. -/
def frameLoop (inp : List Sample) (framesPerBuffer : Nat) (st : CallbackState) :
    Option CallbackState :=
  (List.range framesPerBuffer).foldlM (fun st frame => channelLoop inp frame st) st

/-- Result of one invocation of `audioCallback`. -/
structure CallbackResult where
  status : Int
  channelFiles : List OFStream
  accesses : List (Nat × Nat)
deriving DecidableEq, Repr

/-- The PortAudio callback `audioCallback(inputBuffer, _, framesPerBuffer, _, _, _)` run on
the global `channelFiles`.  The output buffer, time info, status flags and user
data are not used by the source. -/
def audioCallback (inp : List Sample) (framesPerBuffer : Nat) (files : List OFStream) :
    Option CallbackResult :=
  match frameLoop inp framesPerBuffer { channelFiles := files, accesses := [] } with
  | none => none
  | some st => some { status := paContinue, channelFiles := st.channelFiles,
                      accesses := st.accesses }

/-- The callbacks of a run, in order; each entry is the `framesPerBuffer` and
the input buffer of one invocation.  PortAudio keeps calling as long as the
callback answers `paContinue`.  The result is the number of invocations made
and the final `channelFiles`. -/
def runCallbacks : List (Nat × List Sample) → List OFStream → Option (Nat × List OFStream)
  | [], files => some (0, files)
  | (framesPerBuffer, inp) :: rest, files =>
    match audioCallback inp framesPerBuffer files with
    | none => none
    | some r =>
      if r.status = paContinue then
        (runCallbacks rest r.channelFiles).map (fun p => (p.1 + 1, p.2))
      else some (1, r.channelFiles)

/-! ## The program -/

/-- Texts printed by `main`. -/
inductive Message where
  | portAudioError
  | failedToOpenFile (i : Nat)
  | noDefaultInputDevice
  | failedToOpenStream
  | failedToStartStream
  | recording
  | failedToStopStream
  | recordingStopped
deriving DecidableEq, Repr

/-- Effects issued by `main`, each with the answer it received. -/
inductive Effect where
  | paInitialize (err : Int)
  | cerr (m : Message)
  | cout (m : Message)
  | fileOpen (i : Nat) (isOpen : Bool)
  | paGetDefaultInputDevice (device : Int)
  | paGetDeviceInfo (device : Int)
  | paOpenStream (err : Int)
  | paStartStream (err : Int)
  | cinGet
  | paStopStream (err : Int)
  | paCloseStream
  | paTerminate
  | fileClose (i : Nat)
deriving DecidableEq, Repr

/-- Everything `main` receives from outside: the answers of PortAudio and of
the file system, and the input buffers PortAudio hands to the callback while
the stream runs. -/
structure Env where
  paInitialize : Int
  fileOpen : Nat → Bool
  defaultInputDevice : Int
  paOpenStream : Int
  paStartStream : Int
  paStopStream : Int
  periods : List (List Sample)

/-- State of the process while `main` runs. -/
structure World where
  channelFiles : List OFStream
  trace : List Effect
  callbacks : Nat
deriving DecidableEq, Repr

/-- Outcome of `main`: the exit code and the final state. -/
structure MainResult where
  exitCode : Int
  channelFiles : List OFStream
  trace : List Effect
  callbacks : Nat
deriving DecidableEq, Repr

/-- Records one effect. -/
def World.emit (w : World) (e : Effect) : World := { w with trace := w.trace ++ [e] }

/-- Leaves `main` with an exit code. -/
def World.exit (w : World) (code : Int) : MainResult :=
  { exitCode := code, channelFiles := w.channelFiles, trace := w.trace, callbacks := w.callbacks }

/-- Applies a member function to `channelFiles[i]`. -/
def updateFile (files : List OFStream) (i : Nat) (f : OFStream → OFStream) : List OFStream :=
  match files[i]? with
  | some s => files.set i (f s)
  | none => files

/-- Reads `channelFiles[i].is_open()`. -/
def fileIsOpen (files : List OFStream) (i : Nat) : Bool :=
  match files[i]? with
  | some s => s.is_open
  | none => false

/-- Loop of lines 46-53 over the remaining indices: open `channel_i.raw`, leave
with `false` at the first file that is not open. -/
def openChannelFiles (env : Env) : List Nat → World → World × Bool
  | [], w => (w, true)
  | i :: rest, w =>
    let files := updateFile w.channelFiles i (fun s => s.open (env.fileOpen i))
    let w := { w with channelFiles := files }.emit (.fileOpen i (fileIsOpen files i))
    if !fileIsOpen files i then
      (w.emit (.cerr (.failedToOpenFile i)), false)
    else openChannelFiles env rest w

/-- Loop of lines 103-105 over the remaining indices: close every file. -/
def closeChannelFiles : List Nat → World → World
  | [], w => w
  | i :: rest, w =>
    closeChannelFiles rest
      ({ w with channelFiles := updateFile w.channelFiles i OFStream.close }.emit (.fileClose i))

/-- The function `main`.  The result is `none` when a callback of the run reads
outside its input buffer. -/
def main (env : Env) : Option MainResult :=
  let w : World :=
    { channelFiles := List.replicate NUM_CHANNELS OFStream.init, trace := [], callbacks := 0 }
  let err := env.paInitialize
  let w := w.emit (.paInitialize err)
  if err ≠ paNoError then
    some ((w.emit (.cerr .portAudioError)).exit (-1))
  else
    match openChannelFiles env (List.range NUM_CHANNELS) w with
    | (w, false) => some (w.exit (-1))
    | (w, true) =>
      let device := env.defaultInputDevice
      let w := w.emit (.paGetDefaultInputDevice device)
      if device = paNoDevice then
        some ((w.emit (.cerr .noDefaultInputDevice)).exit (-1))
      else
        let w := w.emit (.paGetDeviceInfo device)
        let err := env.paOpenStream
        let w := w.emit (.paOpenStream err)
        if err ≠ paNoError then
          some ((w.emit (.cerr .failedToOpenStream)).exit (-1))
        else
          let err := env.paStartStream
          let w := w.emit (.paStartStream err)
          if err ≠ paNoError then
            some ((w.emit (.cerr .failedToStartStream)).exit (-1))
          else
            let w := (w.emit (.cout .recording)).emit .cinGet
            match runCallbacks (env.periods.map (fun inp => (FRAMES_PER_BUFFER, inp)))
                w.channelFiles with
            | none => none
            | some (n, files) =>
              let w := { w with channelFiles := files, callbacks := n }
              let err := env.paStopStream
              let w := w.emit (.paStopStream err)
              let w := if err ≠ paNoError then w.emit (.cerr .failedToStopStream) else w
              let w := (w.emit .paCloseStream).emit .paTerminate
              let w := closeChannelFiles (List.range NUM_CHANNELS) w
              let w := w.emit (.cout .recordingStopped)
              some (w.exit 0)

/-- An environment in which every call succeeds and no period is delivered. -/
def cleanEnv : Env :=
  { paInitialize := 0, fileOpen := fun _ => true, defaultInputDevice := 0, paOpenStream := 0,
    paStartStream := 0, paStopStream := 0, periods := [] }

/-! ## Specification-side vocabulary -/

/-- The bytes of a sequence of samples, one after the other. -/
def encodeSamples (l : List Sample) : List Byte := l.flatMap Sample.bytes

/-- Reads a byte sequence back as samples of `sizeof(float)` bytes. -/
def decodeSamples : List Byte → List Sample
  | b0 :: b1 :: b2 :: b3 :: rest => ⟨b0, b1, b2, b3⟩ :: decodeSamples rest
  | _ => []

/-- Channel slice of an interleaved block: sample `f` is the sample at
interleaved position `f * NUM_CHANNELS + c`, for `f < F`. -/
def channelSlice (inp : List Sample) (F c : Nat) : List Sample :=
  (List.range F).filterMap (fun f => inp[f * NUM_CHANNELS + c]?)

/-- Re-interleaving of per-channel slices: output position `f * NUM_CHANNELS + c`
takes sample `f` of channel `c`. -/
def reinterleave (slices : List (List Sample)) (F : Nat) : List Sample :=
  (List.range (F * NUM_CHANNELS)).filterMap
    (fun p => (slices[p % NUM_CHANNELS]?).bind (fun s => s[p / NUM_CHANNELS]?))

/-- Four open, empty sinks: the state of `channelFiles` right after `main` has
opened the four files. -/
def emptySinks : List OFStream :=
  List.replicate NUM_CHANNELS { isOpen := true, fail := false, data := [] }

/-- A stream through which bytes can be written: open and not in error. -/
def OFStream.good (s : OFStream) : Prop := s.isOpen = true ∧ s.fail = false

instance (s : OFStream) : Decidable s.good := by unfold OFStream.good; infer_instance

/-- A sample with all four bytes equal to `n`. -/
def mkSample (n : Nat) : Sample := ⟨Fin.ofNat n, Fin.ofNat n, Fin.ofNat n, Fin.ofNat n⟩

/-- A block of one frame used in the examples. -/
def block1 : List Sample := [mkSample 1, mkSample 2, mkSample 3, mkSample 4]

/-- The slices a call has appended, read back from the sinks before and after:
for each sink the bytes beyond its former length, decoded as samples. -/
def appendedSlices (before after : List OFStream) : List (List Sample) :=
  List.zipWith (fun s s' => decodeSamples (s'.data.drop s.data.length)) before after

/-- Writing a sequence of samples through one stream, one `write` call each. -/
def appendSamples (s : OFStream) (l : List Sample) : OFStream :=
  l.foldl (fun s x => s.write x.bytes SIZEOF_FLOAT) s

/-- The accesses of an invocation over `F` frames, in program order. -/
def accessLog (F : Nat) : List (Nat × Nat) :=
  (List.range F).flatMap
    (fun f => (List.range NUM_CHANNELS).map (fun c => (c, f * NUM_CHANNELS + c)))

/-! ## Vocabulary for the traces of `main` -/

/-- Effects of the file-opening loop. -/
def Effect.isOpening : Effect → Bool
  | .fileOpen _ _ => true
  | .cerr (.failedToOpenFile _) => true
  | _ => false

/-- Effects of the shutdown part of `main`, after the callbacks of the run. -/
def shutdownTrace (err : Int) : List Effect :=
  [.paStopStream err] ++ (if err ≠ paNoError then [.cerr .failedToStopStream] else []) ++
    [.paCloseStream, .paTerminate, .fileClose 0, .fileClose 1, .fileClose 2, .fileClose 3,
     .cout .recordingStopped]

/-- The effect opens or starts the stream. -/
def Effect.isStreamOpenOrStart : Effect → Bool
  | .paOpenStream _ => true
  | .paStartStream _ => true
  | _ => false

/-- The effect closes a sink. -/
def Effect.isFileClose : Effect → Bool
  | .fileClose _ => true
  | _ => false

/-- The effect is the call of `Pa_StopStream`. -/
def Effect.isStopStream : Effect → Bool
  | .paStopStream _ => true
  | _ => false

/-- Scans a trace: every effect selected by `p` must find `q` true of the effects
issued before it (`pre` holds the effects already scanned). -/
def eachPreceded (p : Effect → Bool) (q : List Effect → Bool) :
    List Effect → List Effect → Bool
  | _, [] => true
  | pre, e :: post => (!p e || q pre) && eachPreceded p q (pre ++ [e]) post

/-- All four sinks have been opened, with success. -/
def allSinksOpened (pre : List Effect) : Bool :=
  (List.range NUM_CHANNELS).all (fun c => pre.contains (Effect.fileOpen c true))

/-- The stream has been stopped and closed. -/
def streamStopped (pre : List Effect) : Bool :=
  pre.any Effect.isStopStream && pre.contains Effect.paCloseStream

/-- A clean run in which PortAudio delivers one period: every call succeeds. -/
def recordingEnv : Env :=
  { paInitialize := 0, fileOpen := fun _ => true, defaultInputDevice := 0, paOpenStream := 0,
    paStartStream := 0, paStopStream := 0,
    periods := [List.replicate 1024 (mkSample 7)] }

/-- The periods of a run of 100 callbacks of 256 frames. -/
def hundredPeriods : List (List Sample) := List.replicate 100 (List.replicate 1024 (mkSample 0))

/-- A clean run in which PortAudio delivers 100 periods. -/
def hundredPeriodsEnv : Env :=
  { paInitialize := 0, fileOpen := fun _ => true, defaultInputDevice := 0, paOpenStream := 0,
    paStartStream := 0, paStopStream := 0, periods := hundredPeriods }

/-- A run in which no default input device is found. -/
def noDeviceEnv : Env :=
  { paInitialize := 0, fileOpen := fun _ => true, defaultInputDevice := -1, paOpenStream := 0,
    paStartStream := 0, paStopStream := 0, periods := [] }

/-- A run in which everything succeeds except `Pa_StopStream`. -/
def stopFailEnv : Env :=
  { paInitialize := 0, fileOpen := fun _ => true, defaultInputDevice := 0, paOpenStream := 0,
    paStartStream := 0, paStopStream := -1, periods := [] }

/-! ## Lemmas on the vocabulary -/

theorem appendSamples_append (s : OFStream) (l₁ l₂ : List Sample) :
    appendSamples s (l₁ ++ l₂) = appendSamples (appendSamples s l₁) l₂ := by
  simp [appendSamples, List.foldl_append]

theorem appendSamples_good (s : OFStream) (hs : s.good) (l : List Sample) :
    appendSamples s l = { s with data := s.data ++ encodeSamples l } := by
  induction l generalizing s with
  | nil => simp [appendSamples, encodeSamples]
  | cons x l ih =>
    have hw : s.write x.bytes SIZEOF_FLOAT = { s with data := s.data ++ x.bytes } := by
      simp [OFStream.write, hs.1, hs.2, Sample.bytes, SIZEOF_FLOAT]
    have hg : (s.write x.bytes SIZEOF_FLOAT).good := by
      rw [hw]; exact hs
    have := ih (s.write x.bytes SIZEOF_FLOAT) hg
    simp only [appendSamples, List.foldl_cons] at this ⊢
    rw [this, hw]
    simp [encodeSamples, List.append_assoc]

theorem encodeSamples_length (l : List Sample) :
    (encodeSamples l).length = l.length * SIZEOF_FLOAT := by
  induction l with
  | nil => simp [encodeSamples]
  | cons x l ih =>
    simp only [encodeSamples, List.flatMap_cons, List.length_append, List.length_cons] at ih ⊢
    rw [ih]; simp [Sample.bytes, SIZEOF_FLOAT]; omega

theorem encodeSamples_append (l₁ l₂ : List Sample) :
    encodeSamples (l₁ ++ l₂) = encodeSamples l₁ ++ encodeSamples l₂ := by
  simp [encodeSamples]

theorem decode_encode (l : List Sample) : decodeSamples (encodeSamples l) = l := by
  induction l with
  | nil => simp [encodeSamples, decodeSamples]
  | cons x l ih =>
    simp only [encodeSamples, List.flatMap_cons] at ih ⊢
    simp [Sample.bytes, decodeSamples, ih]

theorem channelSlice_succ (inp : List Sample) (F c : Nat) (x : Sample)
    (h : inp[F * NUM_CHANNELS + c]? = some x) :
    channelSlice inp (F + 1) c = channelSlice inp F c ++ [x] := by
  simp [channelSlice, List.range_succ, List.filterMap_append, h]

theorem channelSlice_length (inp : List Sample) (F c : Nat) (hc : c < NUM_CHANNELS)
    (h : F * NUM_CHANNELS ≤ inp.length) : (channelSlice inp F c).length = F := by
  induction F with
  | zero => simp [channelSlice]
  | succ F ih =>
    have hlt : F * NUM_CHANNELS + c < inp.length := by
      simp only [NUM_CHANNELS] at *; omega
    have hx : inp[F * NUM_CHANNELS + c]? = some inp[F * NUM_CHANNELS + c] :=
      List.getElem?_eq_getElem hlt
    rw [channelSlice_succ inp F c _ hx, List.length_append, ih (by simp only [NUM_CHANNELS] at *; omega)]
    simp

theorem channelSlice_getElem_opt (inp : List Sample) (F c : Nat) (hc : c < NUM_CHANNELS)
    (h : F * NUM_CHANNELS ≤ inp.length) (f : Nat) (hf : f < F) :
    (channelSlice inp F c)[f]? = inp[f * NUM_CHANNELS + c]? := by
  induction F with
  | zero => omega
  | succ F ih =>
    have hle : F * NUM_CHANNELS ≤ inp.length := by simp only [NUM_CHANNELS] at *; omega
    have hlt : F * NUM_CHANNELS + c < inp.length := by
      simp only [NUM_CHANNELS] at *; omega
    have hx : inp[F * NUM_CHANNELS + c]? = some inp[F * NUM_CHANNELS + c] :=
      List.getElem?_eq_getElem hlt
    rw [channelSlice_succ inp F c _ hx]
    have hlen := channelSlice_length inp F c hc hle
    by_cases hfF : f < F
    · rw [List.getElem?_append_left (by omega)]
      exact ih hle hfF
    · have hfe : f = F := by omega
      subst hfe
      rw [List.getElem?_append_right (by omega), hlen, hx]
      simp

theorem accessLog_succ (F : Nat) :
    accessLog (F + 1) = accessLog F ++
      [(0, F * NUM_CHANNELS + 0), (1, F * NUM_CHANNELS + 1), (2, F * NUM_CHANNELS + 2),
       (3, F * NUM_CHANNELS + 3)] := by
  simp [accessLog, List.range_succ, NUM_CHANNELS]

/-! ## The loops in closed form -/

theorem channelLoop_eq (inp : List Sample) (frame : Nat) (a b c d : OFStream)
    (log : List (Nat × Nat)) (x0 x1 x2 x3 : Sample)
    (hbound : (frame + 1) * NUM_CHANNELS ≤ ULONG_MODULUS)
    (h0 : inp[frame * NUM_CHANNELS + 0]? = some x0)
    (h1 : inp[frame * NUM_CHANNELS + 1]? = some x1)
    (h2 : inp[frame * NUM_CHANNELS + 2]? = some x2)
    (h3 : inp[frame * NUM_CHANNELS + 3]? = some x3) :
    channelLoop inp frame { channelFiles := [a, b, c, d], accesses := log } =
      some { channelFiles := [a.write x0.bytes SIZEOF_FLOAT, b.write x1.bytes SIZEOF_FLOAT,
                              c.write x2.bytes SIZEOF_FLOAT, d.write x3.bytes SIZEOF_FLOAT],
             accesses := log ++ [(0, frame * NUM_CHANNELS + 0), (1, frame * NUM_CHANNELS + 1),
                                 (2, frame * NUM_CHANNELS + 2), (3, frame * NUM_CHANNELS + 3)] } := by
  have m0 : (frame * NUM_CHANNELS + 0) % ULONG_MODULUS = frame * NUM_CHANNELS + 0 :=
    Nat.mod_eq_of_lt (by simp only [NUM_CHANNELS] at *; omega)
  have m1 : (frame * NUM_CHANNELS + 1) % ULONG_MODULUS = frame * NUM_CHANNELS + 1 :=
    Nat.mod_eq_of_lt (by simp only [NUM_CHANNELS] at *; omega)
  have m2 : (frame * NUM_CHANNELS + 2) % ULONG_MODULUS = frame * NUM_CHANNELS + 2 :=
    Nat.mod_eq_of_lt (by simp only [NUM_CHANNELS] at *; omega)
  have m3 : (frame * NUM_CHANNELS + 3) % ULONG_MODULUS = frame * NUM_CHANNELS + 3 :=
    Nat.mod_eq_of_lt (by simp only [NUM_CHANNELS] at *; omega)
  have hr : List.range NUM_CHANNELS = [0, 1, 2, 3] := by decide
  simp only [channelLoop, hr, List.foldlM_cons, List.foldlM_nil, writeSample, m0, m1, m2, m3,
    h0, h1, h2, h3]
  simp

theorem frameLoop_eq (inp : List Sample) (a b c d : OFStream) (log : List (Nat × Nat))
    (F : Nat) (hlen : F * NUM_CHANNELS ≤ inp.length) (hbound : F * NUM_CHANNELS ≤ ULONG_MODULUS) :
    frameLoop inp F { channelFiles := [a, b, c, d], accesses := log } =
      some { channelFiles := [appendSamples a (channelSlice inp F 0),
                              appendSamples b (channelSlice inp F 1),
                              appendSamples c (channelSlice inp F 2),
                              appendSamples d (channelSlice inp F 3)],
             accesses := log ++ accessLog F } := by
  induction F with
  | zero => simp [frameLoop, channelSlice, appendSamples, accessLog]
  | succ F ih =>
    have hlen' : F * NUM_CHANNELS ≤ inp.length := by simp only [NUM_CHANNELS] at *; omega
    have hbound' : F * NUM_CHANNELS ≤ ULONG_MODULUS := by simp only [NUM_CHANNELS] at *; omega
    have ih' := ih hlen' hbound'
    have hx : ∀ k, k < 4 →
        inp[F * NUM_CHANNELS + k]? = some (inp.getD (F * NUM_CHANNELS + k) (mkSample 0)) := by
      intro k hk
      have hlt : F * NUM_CHANNELS + k < inp.length := by simp only [NUM_CHANNELS] at *; omega
      rw [List.getD_eq_getElem?_getD, List.getElem?_eq_getElem hlt]
      simp
    simp only [frameLoop] at ih' ⊢
    rw [List.range_succ, List.foldlM_append, ih']
    simp only [List.foldlM_cons, List.foldlM_nil, Option.some_bind, Option.bind_eq_bind]
    rw [channelLoop_eq inp F _ _ _ _ _ _ _ _ _ hbound (hx 0 (by omega)) (hx 1 (by omega))
      (hx 2 (by omega)) (hx 3 (by omega))]
    rw [channelSlice_succ inp F 0 _ (hx 0 (by omega)), channelSlice_succ inp F 1 _ (hx 1 (by omega)),
      channelSlice_succ inp F 2 _ (hx 2 (by omega)), channelSlice_succ inp F 3 _ (hx 3 (by omega)),
      accessLog_succ]
    simp [appendSamples_append, appendSamples, List.append_assoc]

theorem length_four {α : Type} (l : List α) (h : l.length = NUM_CHANNELS) :
    ∃ a b c d, l = [a, b, c, d] := by
  match l, h with
  | [a, b, c, d], _ => exact ⟨a, b, c, d, rfl⟩

theorem audioCallback_eq (inp : List Sample) (a b c d : OFStream)
    (F : Nat) (hlen : F * NUM_CHANNELS ≤ inp.length) (hbound : F * NUM_CHANNELS ≤ ULONG_MODULUS) :
    audioCallback inp F [a, b, c, d] =
      some { status := paContinue,
             channelFiles := [appendSamples a (channelSlice inp F 0),
                              appendSamples b (channelSlice inp F 1),
                              appendSamples c (channelSlice inp F 2),
                              appendSamples d (channelSlice inp F 3)],
             accesses := accessLog F } := by
  simp [audioCallback, frameLoop_eq inp a b c d [] F hlen hbound]

theorem accessLog_length (F : Nat) : (accessLog F).length = F * NUM_CHANNELS := by
  induction F with
  | zero => simp [accessLog]
  | succ F ih => rw [accessLog_succ, List.length_append, ih]; simp [NUM_CHANNELS]; omega

theorem accessLog_bounds (F : Nat) (x : Nat × Nat) (hx : x ∈ accessLog F) :
    x.1 < NUM_CHANNELS ∧ x.2 < F * NUM_CHANNELS := by
  induction F with
  | zero => simp [accessLog] at hx
  | succ F ih =>
    rw [accessLog_succ, List.mem_append] at hx
    rcases hx with hx | hx
    · have := ih hx
      simp only [NUM_CHANNELS] at *; omega
    · simp only [List.mem_cons, List.mem_singleton, List.not_mem_nil, or_false] at hx
      rcases hx with hx | hx | hx | hx <;> subst hx <;> simp [NUM_CHANNELS] <;> omega

theorem good_of_mem_four {a b c d : OFStream} (h : ∀ s ∈ [a, b, c, d], s.good) :
    a.good ∧ b.good ∧ c.good ∧ d.good := by
  simp only [List.mem_cons, List.mem_singleton, List.not_mem_nil, or_false] at h
  exact ⟨h a (Or.inl rfl), h b (Or.inr (Or.inl rfl)), h c (Or.inr (Or.inr (Or.inl rfl))),
    h d (Or.inr (Or.inr (Or.inr rfl)))⟩

theorem lt_four_cases {c : Nat} (hc : c < NUM_CHANNELS) : c = 0 ∨ c = 1 ∨ c = 2 ∨ c = 3 := by
  simp only [NUM_CHANNELS] at hc; omega

/-! ## Claims on the callback -/

/-- C1: for every frame count `F` and every input buffer of exactly `F * NUM_CHANNELS`
samples, one invocation of `audioCallback` on four writable sinks returns, and for each
channel `c` the sink of `c` afterwards is the sink before followed by the bytes of exactly
`F` samples, the `f`-th of which is `in[f * 4 + c]`. -/
theorem C1_audioCallback_demultiplexes (inp : List Sample) (F : Nat) (files : List OFStream)
    (hinp : inp.length = F * NUM_CHANNELS) (hF : F * NUM_CHANNELS < ULONG_MODULUS)
    (hfiles : files.length = NUM_CHANNELS) (hgood : ∀ s ∈ files, s.good) :
    ∃ r, audioCallback inp F files = some r ∧ r.channelFiles.length = NUM_CHANNELS ∧
      ∀ c, c < NUM_CHANNELS →
        ∃ s s' slice, files[c]? = some s ∧ r.channelFiles[c]? = some s' ∧
          s'.data = s.data ++ encodeSamples slice ∧ slice.length = F ∧
          (∀ f, f < F → ∃ x, inp[f * NUM_CHANNELS + c]? = some x ∧ slice[f]? = some x) ∧
          decodeSamples (s'.data.drop s.data.length) = slice := by
  obtain ⟨a, b, c', d, rfl⟩ := length_four files hfiles
  obtain ⟨ha, hb, hc', hd⟩ := good_of_mem_four hgood
  refine ⟨_, audioCallback_eq inp a b c' d F (by omega) (by omega), by simp [NUM_CHANNELS], ?_⟩
  intro c hc
  have key : ∀ (s : OFStream), s.good →
      (appendSamples s (channelSlice inp F c)).data = s.data ++ encodeSamples (channelSlice inp F c) ∧
      (channelSlice inp F c).length = F ∧
      (∀ f, f < F → ∃ x, inp[f * NUM_CHANNELS + c]? = some x ∧ (channelSlice inp F c)[f]? = some x) ∧
      decodeSamples ((appendSamples s (channelSlice inp F c)).data.drop s.data.length) =
        channelSlice inp F c := by
    intro s hs
    rw [appendSamples_good s hs]
    refine ⟨rfl, channelSlice_length inp F c hc (by omega), ?_, ?_⟩
    · intro f hf
      have hlt : f * NUM_CHANNELS + c < inp.length := by simp only [NUM_CHANNELS] at *; omega
      refine ⟨inp[f * NUM_CHANNELS + c], List.getElem?_eq_getElem hlt, ?_⟩
      rw [channelSlice_getElem_opt inp F c hc (by omega) f hf, List.getElem?_eq_getElem hlt]
    · simp [decode_encode]
  rcases lt_four_cases hc with h | h | h | h <;> subst h
  · exact ⟨a, _, _, rfl, rfl, key a ha⟩
  · exact ⟨b, _, _, rfl, rfl, key b hb⟩
  · exact ⟨c', _, _, rfl, rfl, key c' hc'⟩
  · exact ⟨d, _, _, rfl, rfl, key d hd⟩

/-- Witness of C1 on a block of one frame and four empty sinks. -/
theorem C1_audioCallback_demultiplexes_witness :
    ∃ r, audioCallback block1 1 emptySinks = some r ∧ r.channelFiles.length = NUM_CHANNELS ∧
      ∀ c, c < NUM_CHANNELS →
        ∃ s s' slice, emptySinks[c]? = some s ∧ r.channelFiles[c]? = some s' ∧
          s'.data = s.data ++ encodeSamples slice ∧ slice.length = 1 ∧
          (∀ f, f < 1 → ∃ x, block1[f * NUM_CHANNELS + c]? = some x ∧ slice[f]? = some x) ∧
          decodeSamples (s'.data.drop s.data.length) = slice :=
  C1_audioCallback_demultiplexes block1 1 emptySinks (by decide) (by decide) (by decide)
    (by decide)

/-- C10: for every frame count `F` and every input buffer of exactly `F * 4` samples the
callback returns (no access leaves `in` or `channelFiles`), every `in` index it reads is
below `F * 4`, every `channelFiles` index it writes is below `NUM_CHANNELS`, the status is
`paContinue`, and for `F = 0` no write is issued and the sinks are unchanged. -/
theorem C10_audioCallback_total_in_bounds (inp : List Sample) (F : Nat) (files : List OFStream)
    (hinp : inp.length = F * NUM_CHANNELS) (hF : F * NUM_CHANNELS < ULONG_MODULUS)
    (hfiles : files.length = NUM_CHANNELS) :
    ∃ r, audioCallback inp F files = some r ∧ r.status = paContinue ∧
      r.accesses.length = F * NUM_CHANNELS ∧
      (∀ x ∈ r.accesses, x.1 < NUM_CHANNELS ∧ x.1 < files.length ∧
        x.2 < F * NUM_CHANNELS ∧ x.2 < inp.length) ∧
      (F = 0 → r.accesses = [] ∧ r.channelFiles = files) := by
  obtain ⟨a, b, c, d, rfl⟩ := length_four files hfiles
  refine ⟨_, audioCallback_eq inp a b c d F (by omega) (by omega), rfl, accessLog_length F, ?_, ?_⟩
  · intro x hx
    have := accessLog_bounds F x hx
    simp only [List.length_cons, List.length_nil]
    simp only [NUM_CHANNELS] at *
    omega
  · intro h0
    subst h0
    simp [accessLog, channelSlice, appendSamples]

/-- Witness of C10 on a block of one frame. -/
theorem C10_audioCallback_total_in_bounds_witness :
    ∃ r, audioCallback block1 1 emptySinks = some r ∧ r.status = paContinue ∧
      r.accesses.length = 1 * NUM_CHANNELS ∧
      (∀ x ∈ r.accesses, x.1 < NUM_CHANNELS ∧ x.1 < emptySinks.length ∧
        x.2 < 1 * NUM_CHANNELS ∧ x.2 < block1.length) ∧
      (1 = 0 → r.accesses = [] ∧ r.channelFiles = emptySinks) :=
  C10_audioCallback_total_in_bounds block1 1 emptySinks (by decide) (by decide) (by decide)

theorem runCallbacks_eq (blocks : List (Nat × List Sample))
    (hwf : ∀ blk ∈ blocks, blk.1 * NUM_CHANNELS ≤ blk.2.length ∧ blk.1 * NUM_CHANNELS ≤ ULONG_MODULUS)
    (a b c d : OFStream) :
    runCallbacks blocks [a, b, c, d] =
      some (blocks.length,
        [appendSamples a (blocks.flatMap (fun blk => channelSlice blk.2 blk.1 0)),
         appendSamples b (blocks.flatMap (fun blk => channelSlice blk.2 blk.1 1)),
         appendSamples c (blocks.flatMap (fun blk => channelSlice blk.2 blk.1 2)),
         appendSamples d (blocks.flatMap (fun blk => channelSlice blk.2 blk.1 3))]) := by
  induction blocks generalizing a b c d with
  | nil => simp [runCallbacks, appendSamples]
  | cons blk rest ih =>
    obtain ⟨F, inp⟩ := blk
    have hblk := hwf (F, inp) (List.mem_cons_self _ _)
    have hrest : ∀ blk ∈ rest,
        blk.1 * NUM_CHANNELS ≤ blk.2.length ∧ blk.1 * NUM_CHANNELS ≤ ULONG_MODULUS :=
      fun blk h => hwf blk (List.mem_cons_of_mem _ h)
    simp only [runCallbacks, audioCallback_eq inp a b c d F hblk.1 hblk.2, if_true]
    rw [ih hrest]
    simp [appendSamples_append]

theorem emptySinks_eq : emptySinks =
    [{ isOpen := true, fail := false, data := [] }, { isOpen := true, fail := false, data := [] },
     { isOpen := true, fail := false, data := [] }, { isOpen := true, fail := false, data := [] }] := by
  decide

theorem appendSamples_empty (l : List Sample) :
    appendSamples { isOpen := true, fail := false, data := [] } l =
      { isOpen := true, fail := false, data := encodeSamples l } := by
  rw [appendSamples_good _ ⟨rfl, rfl⟩]; simp

theorem runCallbacks_emptySinks (blocks : List (Nat × List Sample))
    (hwf : ∀ blk ∈ blocks, blk.1 * NUM_CHANNELS ≤ blk.2.length ∧ blk.1 * NUM_CHANNELS ≤ ULONG_MODULUS) :
    runCallbacks blocks emptySinks =
      some (blocks.length,
        [{ isOpen := true, fail := false,
           data := encodeSamples (blocks.flatMap (fun blk => channelSlice blk.2 blk.1 0)) },
         { isOpen := true, fail := false,
           data := encodeSamples (blocks.flatMap (fun blk => channelSlice blk.2 blk.1 1)) },
         { isOpen := true, fail := false,
           data := encodeSamples (blocks.flatMap (fun blk => channelSlice blk.2 blk.1 2)) },
         { isOpen := true, fail := false,
           data := encodeSamples (blocks.flatMap (fun blk => channelSlice blk.2 blk.1 3)) }]) := by
  rw [emptySinks_eq, runCallbacks_eq blocks hwf]
  simp only [appendSamples_empty]

theorem flatMap_channelSlice_length (blocks : List (List Sample)) (F c : Nat)
    (hc : c < NUM_CHANNELS) (hlen : ∀ blk ∈ blocks, blk.length = F * NUM_CHANNELS) :
    ((blocks.map (fun inp => (F, inp))).flatMap (fun blk => channelSlice blk.2 blk.1 c)).length =
      blocks.length * F := by
  induction blocks with
  | nil => simp
  | cons blk rest ih =>
    have h1 := hlen blk (List.mem_cons_self _ _)
    have h2 := ih (fun blk h => hlen blk (List.mem_cons_of_mem _ h))
    simp only [List.map_cons, List.flatMap_cons, List.length_append, List.length_cons, h2,
      channelSlice_length blk F c hc (by omega)]
    rw [Nat.add_mul]; omega

theorem filterMap_range_getElem_opt {α : Type} (l : List α) :
    (List.range l.length).filterMap (fun p => l[p]?) = l := by
  induction l using List.reverseRecOn with
  | nil => simp
  | append_singleton l x ih =>
    rw [List.length_append, List.length_singleton, List.range_succ, List.filterMap_append]
    have h1 : (List.range l.length).filterMap (fun p => (l ++ [x])[p]?) =
        (List.range l.length).filterMap (fun p => l[p]?) := by
      apply List.filterMap_congr
      intro p hp
      rw [List.getElem?_append_left (List.mem_range.1 hp)]
    rw [h1, ih]
    simp

theorem reinterleave_channelSlice (inp : List Sample) (F : Nat)
    (hinp : inp.length = F * NUM_CHANNELS) :
    reinterleave [channelSlice inp F 0, channelSlice inp F 1, channelSlice inp F 2,
      channelSlice inp F 3] F = inp := by
  have h : (List.range (F * NUM_CHANNELS)).filterMap
      (fun p => ([channelSlice inp F 0, channelSlice inp F 1, channelSlice inp F 2,
        channelSlice inp F 3][p % NUM_CHANNELS]?).bind (fun s => s[p / NUM_CHANNELS]?)) =
      (List.range (F * NUM_CHANNELS)).filterMap (fun p => inp[p]?) := by
    apply List.filterMap_congr
    intro p hp
    have hp' : p < F * NUM_CHANNELS := List.mem_range.1 hp
    have hq : p / NUM_CHANNELS < F := by
      simp only [NUM_CHANNELS] at *; omega
    have hr : p % NUM_CHANNELS < NUM_CHANNELS := by
      simp only [NUM_CHANNELS]; omega
    have hpe : p / NUM_CHANNELS * NUM_CHANNELS + p % NUM_CHANNELS = p := by
      simp only [NUM_CHANNELS]; omega
    have hs := channelSlice_getElem_opt inp F (p % NUM_CHANNELS) hr (by omega) (p / NUM_CHANNELS) hq
    rw [hpe] at hs
    rcases lt_four_cases hr with h | h | h | h <;> rw [h] at hs ⊢ <;> simpa using hs
  unfold reinterleave
  rw [h, ← hinp]
  exact filterMap_range_getElem_opt inp

theorem appendedSlices_good (a b c d : OFStream) (ha : a.good) (hb : b.good) (hc : c.good)
    (hd : d.good) (s0 s1 s2 s3 : List Sample) :
    appendedSlices [a, b, c, d]
      [appendSamples a s0, appendSamples b s1, appendSamples c s2, appendSamples d s3] =
      [s0, s1, s2, s3] := by
  simp [appendedSlices, appendSamples_good, ha, hb, hc, hd, decode_encode]

/-- C3: for every finite sequence of callback invocations on well-sized blocks
`B_1..B_n`, starting from empty sinks, all `n` invocations are made and the final content
of channel `c`'s sink is exactly the concatenation, in invocation order, of the channel-`c`
slices of `B_1, ..., B_n`, each slice holding all `F_i` samples of its block. -/
theorem C3_sink_is_concatenation_of_slices (blocks : List (Nat × List Sample))
    (hwf : ∀ blk ∈ blocks, blk.2.length = blk.1 * NUM_CHANNELS ∧
      blk.1 * NUM_CHANNELS < ULONG_MODULUS) :
    ∃ sinks, runCallbacks blocks emptySinks = some (blocks.length, sinks) ∧
      sinks.length = NUM_CHANNELS ∧
      ∀ c, c < NUM_CHANNELS → ∃ s, sinks[c]? = some s ∧
        s.data = encodeSamples (blocks.flatMap (fun blk => channelSlice blk.2 blk.1 c)) ∧
        decodeSamples s.data = blocks.flatMap (fun blk => channelSlice blk.2 blk.1 c) ∧
        ∀ blk ∈ blocks, (channelSlice blk.2 blk.1 c).length = blk.1 ∧
          ∀ f, f < blk.1 → (channelSlice blk.2 blk.1 c)[f]? = blk.2[f * NUM_CHANNELS + c]? := by
  have hwf' : ∀ blk ∈ blocks,
      blk.1 * NUM_CHANNELS ≤ blk.2.length ∧ blk.1 * NUM_CHANNELS ≤ ULONG_MODULUS := by
    intro blk h
    have := hwf blk h
    omega
  refine ⟨_, runCallbacks_emptySinks blocks hwf', by simp [NUM_CHANNELS], ?_⟩
  intro c hc
  have hslices : ∀ blk ∈ blocks, (channelSlice blk.2 blk.1 c).length = blk.1 ∧
      ∀ f, f < blk.1 → (channelSlice blk.2 blk.1 c)[f]? = blk.2[f * NUM_CHANNELS + c]? :=
    fun blk h => ⟨channelSlice_length blk.2 blk.1 c hc (hwf' blk h).1,
      channelSlice_getElem_opt blk.2 blk.1 c hc (hwf' blk h).1⟩
  rcases lt_four_cases hc with h | h | h | h <;> subst h <;>
    exact ⟨_, rfl, rfl, decode_encode _, hslices⟩

/-- Witness of C3 on two blocks of one frame. -/
theorem C3_sink_is_concatenation_of_slices_witness :
    ∃ sinks, runCallbacks [(1, block1), (1, block1)] emptySinks = some (2, sinks) ∧
      sinks.length = NUM_CHANNELS ∧
      ∀ c, c < NUM_CHANNELS → ∃ s, sinks[c]? = some s ∧
        s.data = encodeSamples
          ([(1, block1), (1, block1)].flatMap (fun blk => channelSlice blk.2 blk.1 c)) ∧
        decodeSamples s.data =
          [(1, block1), (1, block1)].flatMap (fun blk => channelSlice blk.2 blk.1 c) ∧
        ∀ blk ∈ [(1, block1), (1, block1)], (channelSlice blk.2 blk.1 c).length = blk.1 ∧
          ∀ f, f < blk.1 → (channelSlice blk.2 blk.1 c)[f]? = blk.2[f * NUM_CHANNELS + c]? :=
  C3_sink_is_concatenation_of_slices [(1, block1), (1, block1)] (by decide)

/-- C2: round trip.  For every frame count `F` and every input block of `F * 4` samples,
the four sequences one invocation of `audioCallback` appends to four writable sinks,
re-interleaved, are the original block. -/
theorem C2_round_trip (inp : List Sample) (F : Nat) (files : List OFStream)
    (hinp : inp.length = F * NUM_CHANNELS) (hF : F * NUM_CHANNELS < ULONG_MODULUS)
    (hfiles : files.length = NUM_CHANNELS) (hgood : ∀ s ∈ files, s.good) :
    ∃ r, audioCallback inp F files = some r ∧
      reinterleave (appendedSlices files r.channelFiles) F = inp := by
  obtain ⟨a, b, c, d, rfl⟩ := length_four files hfiles
  obtain ⟨ha, hb, hc, hd⟩ := good_of_mem_four hgood
  refine ⟨_, audioCallback_eq inp a b c d F (by omega) (by omega), ?_⟩
  simp only []
  rw [appendedSlices_good a b c d ha hb hc hd]
  exact reinterleave_channelSlice inp F hinp

/-- Witness of C2 on a block of one frame and four empty sinks. -/
theorem C2_round_trip_witness :
    ∃ r, audioCallback block1 1 emptySinks = some r ∧
      reinterleave (appendedSlices emptySinks r.channelFiles) 1 = block1 :=
  C2_round_trip block1 1 emptySinks (by decide) (by decide) (by decide) (by decide)

/-- C5, as stated, fails: on a block of one frame the callback writes the four samples to
the four sinks, which are no longer what they were before the call. -/
theorem C5_callback_writes_counterexample :
    (emptySinks.map (fun s => s.data) = [[], [], [], []]) ∧
    (audioCallback block1 1 emptySinks).map (fun r => r.channelFiles.map (fun s => s.data)) =
      some [[1, 1, 1, 1], [2, 2, 2, 2], [3, 3, 3, 3], [4, 4, 4, 4]] ∧
    ¬ (∀ r, audioCallback block1 1 emptySinks = some r → r.channelFiles = emptySinks) := by
  refine ⟨by decide, by decide, ?_⟩
  intro h
  have h2 := h _ (audioCallback_eq block1 _ _ _ _ 1 (by decide) (by decide))
  revert h2
  decide

/-- C5, amended: the callback performs the file writes itself.  An invocation over `F`
frames on four writable sinks issues exactly `F * NUM_CHANNELS` write calls, every sink
grows by `F * sizeof(float)` bytes, and the sinks are what they were before the call
exactly when `F = 0`. -/
theorem C5_callback_writes_directly (inp : List Sample) (F : Nat) (files : List OFStream)
    (hinp : inp.length = F * NUM_CHANNELS) (hF : F * NUM_CHANNELS < ULONG_MODULUS)
    (hfiles : files.length = NUM_CHANNELS) (hgood : ∀ s ∈ files, s.good) :
    ∃ r, audioCallback inp F files = some r ∧
      r.accesses.length = F * NUM_CHANNELS ∧
      (∀ c, c < NUM_CHANNELS → ∃ s s', files[c]? = some s ∧ r.channelFiles[c]? = some s' ∧
        s'.data.length = s.data.length + F * SIZEOF_FLOAT) ∧
      (r.channelFiles = files ↔ F = 0) := by
  obtain ⟨a, b, c', d, rfl⟩ := length_four files hfiles
  obtain ⟨ha, hb, hc', hd⟩ := good_of_mem_four hgood
  refine ⟨_, audioCallback_eq inp a b c' d F (by omega) (by omega), accessLog_length F, ?_, ?_⟩
  · intro c hc
    have key : ∀ (s : OFStream), s.good →
        (appendSamples s (channelSlice inp F c)).data.length =
          s.data.length + F * SIZEOF_FLOAT := by
      intro s hs
      rw [appendSamples_good s hs]
      simp only [List.length_append, encodeSamples_length,
        channelSlice_length inp F c hc (by omega)]
    rcases lt_four_cases hc with h | h | h | h <;> subst h
    · exact ⟨a, _, rfl, rfl, key a ha⟩
    · exact ⟨b, _, rfl, rfl, key b hb⟩
    · exact ⟨c', _, rfl, rfl, key c' hc'⟩
    · exact ⟨d, _, rfl, rfl, key d hd⟩
  · constructor
    · intro h
      have h0 : appendSamples a (channelSlice inp F 0) = a := by
        simp only [List.cons.injEq] at h
        exact h.1
      have hl := congrArg (fun s => s.data.length) h0
      simp only [appendSamples_good a ha, List.length_append, encodeSamples_length,
        channelSlice_length inp F 0 (by decide) (by omega), SIZEOF_FLOAT] at hl
      omega
    · intro h
      subst h
      simp [channelSlice, appendSamples]

/-- Witness of C5 (amended) on a block of one frame and four empty sinks. -/
theorem C5_callback_writes_directly_witness :
    ∃ r, audioCallback block1 1 emptySinks = some r ∧
      r.accesses.length = 1 * NUM_CHANNELS ∧
      (∀ c, c < NUM_CHANNELS → ∃ s s', emptySinks[c]? = some s ∧ r.channelFiles[c]? = some s' ∧
        s'.data.length = s.data.length + 1 * SIZEOF_FLOAT) ∧
      (r.channelFiles = emptySinks ↔ 1 = 0) :=
  C5_callback_writes_directly block1 1 emptySinks (by decide) (by decide) (by decide)
    (by decide)

/-! ## The program in closed form -/

theorem range_four : List.range NUM_CHANNELS = [0, 1, 2, 3] := by decide

theorem initFiles_eq : List.replicate NUM_CHANNELS OFStream.init =
    [OFStream.init, OFStream.init, OFStream.init, OFStream.init] := by decide

theorem openChannelFiles_all (env : Env) (t : List Effect) (n : Nat)
    (h : ∀ i, i < NUM_CHANNELS → env.fileOpen i = true) :
    openChannelFiles env (List.range NUM_CHANNELS)
        { channelFiles := List.replicate NUM_CHANNELS OFStream.init, trace := t, callbacks := n } =
      ({ channelFiles := emptySinks,
         trace := t ++ [.fileOpen 0 true, .fileOpen 1 true, .fileOpen 2 true, .fileOpen 3 true],
         callbacks := n }, true) := by
  have h0 := h 0 (by decide)
  have h1 := h 1 (by decide)
  have h2 := h 2 (by decide)
  have h3 := h 3 (by decide)
  rw [range_four, initFiles_eq, emptySinks_eq]
  simp [openChannelFiles, updateFile, fileIsOpen,
    OFStream.open, OFStream.init, OFStream.is_open, World.emit, h0, h1, h2, h3]

theorem openChannelFiles_fail (env : Env) (t : List Effect) (n : Nat)
    (h : ∃ i, i < NUM_CHANNELS ∧ env.fileOpen i = false) :
    ∃ w, openChannelFiles env (List.range NUM_CHANNELS)
        { channelFiles := List.replicate NUM_CHANNELS OFStream.init, trace := t,
          callbacks := n } = (w, false) ∧
      w.callbacks = n ∧ (∀ s ∈ w.channelFiles, s.data = []) ∧
      ∃ suffix, w.trace = t ++ suffix ∧ ∀ e ∈ suffix, e.isOpening = true := by
  obtain ⟨i, hi, hf⟩ := h
  rw [range_four, initFiles_eq]
  generalize hr : openChannelFiles env [0, 1, 2, 3]
    { channelFiles := [OFStream.init, OFStream.init, OFStream.init, OFStream.init], trace := t,
      callbacks := n } = r
  obtain ⟨w, b⟩ := r
  cases h0 : env.fileOpen 0 <;> cases h1 : env.fileOpen 1 <;> cases h2 : env.fileOpen 2 <;>
    cases h3 : env.fileOpen 3 <;>
    simp [openChannelFiles, updateFile, fileIsOpen,
           OFStream.open, OFStream.init, OFStream.is_open, World.emit, h0, h1, h2, h3] at hr <;>
    obtain ⟨hw, hb⟩ := hr <;> subst hw <;> subst hb
  all_goals first
    | exact ⟨_, rfl, rfl, by simp, _, rfl, by simp [Effect.isOpening]⟩
    | (exfalso
       rcases lt_four_cases hi with h | h | h | h <;> subst h <;> simp_all)

theorem closeChannelFiles_eq (a b c d : OFStream) (t : List Effect) (n : Nat) :
    closeChannelFiles (List.range NUM_CHANNELS)
        { channelFiles := [a, b, c, d], trace := t, callbacks := n } =
      { channelFiles := [a.close, b.close, c.close, d.close],
        trace := t ++ [.fileClose 0, .fileClose 1, .fileClose 2, .fileClose 3],
        callbacks := n } := by
  rw [range_four]
  simp [closeChannelFiles, updateFile, World.emit]

theorem main_init_fail (env : Env) (hi : env.paInitialize ≠ paNoError) :
    main env = some
      { exitCode := -1, channelFiles := List.replicate NUM_CHANNELS OFStream.init,
        trace := [.paInitialize env.paInitialize, .cerr .portAudioError], callbacks := 0 } := by
  simp [main, hi, World.emit, World.exit]

theorem main_open_fail (env : Env) (hi : env.paInitialize = paNoError)
    (hf : ∃ i, i < NUM_CHANNELS ∧ env.fileOpen i = false) :
    ∃ r, main env = some r ∧ r.exitCode = -1 ∧ r.callbacks = 0 ∧
      (∀ s ∈ r.channelFiles, s.data = []) ∧
      ∃ suffix, r.trace = [.paInitialize env.paInitialize] ++ suffix ∧
        ∀ e ∈ suffix, e.isOpening = true := by
  obtain ⟨w, hw, hc, hd, ht⟩ := openChannelFiles_fail env [.paInitialize env.paInitialize] 0 hf
  refine ⟨w.exit (-1), ?_, rfl, hc, hd, ht⟩
  simp only [hi] at hw
  simp [main, hi, World.emit, hw]

theorem main_no_device (env : Env) (hi : env.paInitialize = paNoError)
    (hf : ∀ i, i < NUM_CHANNELS → env.fileOpen i = true)
    (hd : env.defaultInputDevice = paNoDevice) :
    main env = some
      { exitCode := -1, channelFiles := emptySinks,
        trace := [.paInitialize env.paInitialize, .fileOpen 0 true, .fileOpen 1 true,
          .fileOpen 2 true, .fileOpen 3 true,
          .paGetDefaultInputDevice env.defaultInputDevice, .cerr .noDefaultInputDevice],
        callbacks := 0 } := by
  have ho := openChannelFiles_all env [.paInitialize env.paInitialize] 0 hf
  simp only [hi] at ho
  simp [main, hi, World.emit, World.exit, ho, hd]

theorem main_openStream_fail (env : Env) (hi : env.paInitialize = paNoError)
    (hf : ∀ i, i < NUM_CHANNELS → env.fileOpen i = true)
    (hd : env.defaultInputDevice ≠ paNoDevice) (hs : env.paOpenStream ≠ paNoError) :
    main env = some
      { exitCode := -1, channelFiles := emptySinks,
        trace := [.paInitialize env.paInitialize, .fileOpen 0 true, .fileOpen 1 true,
          .fileOpen 2 true, .fileOpen 3 true,
          .paGetDefaultInputDevice env.defaultInputDevice,
          .paGetDeviceInfo env.defaultInputDevice, .paOpenStream env.paOpenStream,
          .cerr .failedToOpenStream],
        callbacks := 0 } := by
  have ho := openChannelFiles_all env [.paInitialize env.paInitialize] 0 hf
  simp only [hi] at ho
  simp [main, hi, World.emit, World.exit, ho, hd, hs]

theorem main_startStream_fail (env : Env) (hi : env.paInitialize = paNoError)
    (hf : ∀ i, i < NUM_CHANNELS → env.fileOpen i = true)
    (hd : env.defaultInputDevice ≠ paNoDevice) (hs : env.paOpenStream = paNoError)
    (hst : env.paStartStream ≠ paNoError) :
    main env = some
      { exitCode := -1, channelFiles := emptySinks,
        trace := [.paInitialize env.paInitialize, .fileOpen 0 true, .fileOpen 1 true,
          .fileOpen 2 true, .fileOpen 3 true,
          .paGetDefaultInputDevice env.defaultInputDevice,
          .paGetDeviceInfo env.defaultInputDevice, .paOpenStream env.paOpenStream,
          .paStartStream env.paStartStream, .cerr .failedToStartStream],
        callbacks := 0 } := by
  have ho := openChannelFiles_all env [.paInitialize env.paInitialize] 0 hf
  simp only [hi] at ho
  simp [main, hi, World.emit, World.exit, ho, hd, hs, hst]

theorem main_run (env : Env) (hi : env.paInitialize = paNoError)
    (hf : ∀ i, i < NUM_CHANNELS → env.fileOpen i = true)
    (hd : env.defaultInputDevice ≠ paNoDevice) (hs : env.paOpenStream = paNoError)
    (hst : env.paStartStream = paNoError) (n : Nat) (a b c d : OFStream)
    (hrun : runCallbacks (env.periods.map (fun inp => (FRAMES_PER_BUFFER, inp))) emptySinks =
      some (n, [a, b, c, d])) :
    main env = some
      { exitCode := 0, channelFiles := [a.close, b.close, c.close, d.close],
        trace := [.paInitialize env.paInitialize, .fileOpen 0 true, .fileOpen 1 true,
          .fileOpen 2 true, .fileOpen 3 true,
          .paGetDefaultInputDevice env.defaultInputDevice,
          .paGetDeviceInfo env.defaultInputDevice, .paOpenStream env.paOpenStream,
          .paStartStream env.paStartStream, .cout .recording, .cinGet] ++
          shutdownTrace env.paStopStream,
        callbacks := n } := by
  have ho := openChannelFiles_all env [.paInitialize env.paInitialize] 0 hf
  simp only [hi] at ho
  by_cases hstop : env.paStopStream = paNoError
  · simp [main, hi, World.emit, World.exit, ho, hd, hs, hst, hrun, hstop, closeChannelFiles_eq,
      shutdownTrace]
  · simp [main, hi, World.emit, World.exit, ho, hd, hs, hst, hrun, hstop, closeChannelFiles_eq,
      shutdownTrace]

theorem closeChannelFiles_split (l : List Nat) (files : List OFStream) (t : List Effect)
    (n : Nat) :
    closeChannelFiles l { channelFiles := files, trace := t, callbacks := n } =
      { channelFiles :=
          (closeChannelFiles l { channelFiles := files, trace := [], callbacks := 0 }).channelFiles,
        trace := t ++ l.map Effect.fileClose, callbacks := n } := by
  induction l generalizing files t n with
  | nil => simp [closeChannelFiles]
  | cons i rest ih =>
    simp only [closeChannelFiles, World.emit]
    rw [ih, ih (updateFile files i OFStream.close) ([] ++ [Effect.fileClose i]) 0]
    simp

theorem main_run_general (env : Env) (hi : env.paInitialize = paNoError)
    (hf : ∀ i, i < NUM_CHANNELS → env.fileOpen i = true)
    (hd : env.defaultInputDevice ≠ paNoDevice) (hs : env.paOpenStream = paNoError)
    (hst : env.paStartStream = paNoError) (r : MainResult) (hr : main env = some r) :
    r.exitCode = 0 ∧
    r.trace = [.paInitialize env.paInitialize, .fileOpen 0 true, .fileOpen 1 true,
          .fileOpen 2 true, .fileOpen 3 true,
          .paGetDefaultInputDevice env.defaultInputDevice,
          .paGetDeviceInfo env.defaultInputDevice, .paOpenStream env.paOpenStream,
          .paStartStream env.paStartStream, .cout .recording, .cinGet] ++
          shutdownTrace env.paStopStream := by
  have ho := openChannelFiles_all env [.paInitialize env.paInitialize] 0 hf
  simp only [hi] at ho
  cases hrun : runCallbacks (env.periods.map (fun inp => (FRAMES_PER_BUFFER, inp))) emptySinks with
  | none => simp [main, hi, World.emit, ho, hd, hs, hst, hrun] at hr
  | some p =>
    obtain ⟨n, files⟩ := p
    by_cases hstop : env.paStopStream = paNoError
    · simp [main, hi, World.emit, World.exit, ho, hd, hs, hst, hrun, hstop] at hr
      rw [closeChannelFiles_split] at hr
      subst hr
      simp [shutdownTrace, hi, hs, hst, hstop, range_four]
    · simp [main, hi, World.emit, World.exit, ho, hd, hs, hst, hrun, hstop] at hr
      rw [closeChannelFiles_split] at hr
      subst hr
      simp [shutdownTrace, hi, hs, hst, hstop, range_four]

theorem eachPreceded_sound (p : Effect → Bool) (q : List Effect → Bool) (t pre0 : List Effect)
    (h : eachPreceded p q pre0 t = true) (pre : List Effect) (e : Effect) (post : List Effect)
    (ht : t = pre ++ e :: post) (hp : p e = true) : q (pre0 ++ pre) = true := by
  induction t generalizing pre0 pre with
  | nil => simp at ht
  | cons x rest ih =>
    simp only [eachPreceded, Bool.and_eq_true, Bool.or_eq_true, Bool.not_eq_true'] at h
    cases pre with
    | nil =>
      simp only [List.nil_append, List.cons.injEq] at ht
      obtain ⟨hx, _⟩ := ht
      subst hx
      rcases h.1 with h1 | h1
      · rw [hp] at h1; exact absurd h1 (by simp)
      · simpa using h1
    | cons y pre' =>
      simp only [List.cons_append, List.cons.injEq] at ht
      obtain ⟨hx, hrest⟩ := ht
      subst hx
      have := ih (pre0 ++ [x]) h.2 pre' hrest
      simpa [List.append_assoc] using this

theorem eachPreceded_of_none (p : Effect → Bool) (q : List Effect → Bool) (t pre0 : List Effect)
    (h : ∀ e ∈ t, p e = false) : eachPreceded p q pre0 t = true := by
  induction t generalizing pre0 with
  | nil => rfl
  | cons x rest ih =>
    simp only [eachPreceded, Bool.and_eq_true, Bool.or_eq_true, Bool.not_eq_true']
    exact ⟨Or.inl (h x (List.mem_cons_self _ _)),
      ih _ (fun e he => h e (List.mem_cons_of_mem _ he))⟩

theorem allSinksOpened_mem (pre : List Effect) (h : allSinksOpened pre = true) (c : Nat)
    (hc : c < NUM_CHANNELS) : Effect.fileOpen c true ∈ pre := by
  simp only [allSinksOpened, List.all_eq_true, List.mem_range] at h
  simpa using h c hc

theorem streamStopped_mem (pre : List Effect) (h : streamStopped pre = true) :
    (∃ err, Effect.paStopStream err ∈ pre) ∧ Effect.paCloseStream ∈ pre := by
  simp only [streamStopped, Bool.and_eq_true, List.any_eq_true] at h
  obtain ⟨⟨e, he, hs⟩, hc⟩ := h
  refine ⟨?_, by simpa using hc⟩
  cases e <;> simp [Effect.isStopStream] at hs
  exact ⟨_, he⟩

theorem main_trace_checks (env : Env) (r : MainResult) (hr : main env = some r) :
    eachPreceded Effect.isStreamOpenOrStart allSinksOpened [] r.trace = true ∧
    eachPreceded Effect.isFileClose streamStopped [] r.trace = true := by
  by_cases hi : env.paInitialize = paNoError
  swap
  · rw [main_init_fail env hi] at hr
    cases hr
    exact ⟨rfl, rfl⟩
  by_cases hf : ∀ i, i < NUM_CHANNELS → env.fileOpen i = true
  swap
  · have hf' : ∃ i, i < NUM_CHANNELS ∧ env.fileOpen i = false := by
      by_contra hcon
      apply hf
      intro i hlt
      cases hfi : env.fileOpen i
      · exact absurd ⟨i, hlt, hfi⟩ hcon
      · rfl
    obtain ⟨r', hr', _, _, _, suffix, ht, hsuf⟩ := main_open_fail env hi hf'
    rw [hr'] at hr
    cases hr
    rw [ht]
    constructor <;> apply eachPreceded_of_none <;> intro e he <;>
      simp only [List.singleton_append, List.mem_cons] at he <;>
      rcases he with he | he
    · subst he; rfl
    · have := hsuf e he
      cases e <;> simp_all [Effect.isOpening, Effect.isStreamOpenOrStart]
    · subst he; rfl
    · have := hsuf e he
      cases e <;> simp_all [Effect.isOpening, Effect.isFileClose]
  by_cases hd : env.defaultInputDevice = paNoDevice
  · rw [main_no_device env hi hf hd] at hr
    cases hr
    exact ⟨by simp [eachPreceded, Effect.isStreamOpenOrStart],
      by simp [eachPreceded, Effect.isFileClose]⟩
  by_cases hs : env.paOpenStream = paNoError
  swap
  · rw [main_openStream_fail env hi hf hd hs] at hr
    cases hr
    exact ⟨by simp [eachPreceded, Effect.isStreamOpenOrStart, allSinksOpened, range_four],
      by simp [eachPreceded, Effect.isFileClose]⟩
  by_cases hst : env.paStartStream = paNoError
  swap
  · rw [main_startStream_fail env hi hf hd hs hst] at hr
    cases hr
    exact ⟨by simp [eachPreceded, Effect.isStreamOpenOrStart, allSinksOpened, range_four],
      by simp [eachPreceded, Effect.isFileClose]⟩
  obtain ⟨_, ht⟩ := main_run_general env hi hf hd hs hst r hr
  rw [ht]
  by_cases hstop : env.paStopStream = paNoError
  · exact ⟨by simp [eachPreceded, Effect.isStreamOpenOrStart, allSinksOpened, range_four,
        shutdownTrace, hstop],
      by simp [eachPreceded, Effect.isFileClose, streamStopped, Effect.isStopStream,
        shutdownTrace, hstop]⟩
  · exact ⟨by simp [eachPreceded, Effect.isStreamOpenOrStart, allSinksOpened, range_four,
        shutdownTrace, hstop],
      by simp [eachPreceded, Effect.isFileClose, streamStopped, Effect.isStopStream,
        shutdownTrace, hstop]⟩

/-! ## Claims on the program -/

/-- C6: in every execution of `main`, each effect that opens or starts the stream comes
after the successful opening of all 4 sinks, and each effect that closes a sink comes after
the call of `Pa_StopStream` (and after `Pa_CloseStream`). -/
theorem C6_sink_lifetime_brackets_stream (env : Env) (r : MainResult)
    (hr : main env = some r) :
    (∀ pre e post, r.trace = pre ++ e :: post →
      ((∃ err, e = Effect.paOpenStream err) ∨ (∃ err, e = Effect.paStartStream err)) →
      ∀ c, c < NUM_CHANNELS → Effect.fileOpen c true ∈ pre) ∧
    (∀ pre e post, r.trace = pre ++ e :: post → (∃ c, e = Effect.fileClose c) →
      (∃ err, Effect.paStopStream err ∈ pre) ∧ Effect.paCloseStream ∈ pre) := by
  obtain ⟨h1, h2⟩ := main_trace_checks env r hr
  constructor
  · intro pre e post ht he c hc
    have hp : e.isStreamOpenOrStart = true := by
      rcases he with ⟨err, rfl⟩ | ⟨err, rfl⟩ <;> rfl
    have := eachPreceded_sound _ _ _ _ h1 pre e post ht hp
    exact allSinksOpened_mem _ (by simpa using this) c hc
  · intro pre e post ht he
    have hp : e.isFileClose = true := by
      obtain ⟨c, rfl⟩ := he
      rfl
    have := eachPreceded_sound _ _ _ _ h2 pre e post ht hp
    exact streamStopped_mem _ (by simpa using this)

/-- Witness of C6 on a clean run: the stream is opened and started, the sinks are closed,
and the order is as claimed. -/
theorem C6_sink_lifetime_brackets_stream_witness :
    ∃ r, main cleanEnv = some r ∧ Effect.paOpenStream 0 ∈ r.trace ∧
      Effect.paStartStream 0 ∈ r.trace ∧ Effect.fileClose 3 ∈ r.trace ∧
      (∀ pre e post, r.trace = pre ++ e :: post →
        ((∃ err, e = Effect.paOpenStream err) ∨ (∃ err, e = Effect.paStartStream err)) →
        ∀ c, c < NUM_CHANNELS → Effect.fileOpen c true ∈ pre) ∧
      (∀ pre e post, r.trace = pre ++ e :: post → (∃ c, e = Effect.fileClose c) →
        (∃ err, Effect.paStopStream err ∈ pre) ∧ Effect.paCloseStream ∈ pre) :=
  ⟨_, rfl, by decide, by decide, by decide,
    C6_sink_lifetime_brackets_stream cleanEnv _ rfl⟩

/-- C7: in every execution of `main` in which a sink fails to open, no default input
device is found, or opening the stream fails, `main` returns, `Pa_StartStream` is never
called, no callback runs, every sink holds zero bytes, and the exit code is nonzero. -/
theorem C7_startup_failure_leaves_no_artifacts (env : Env)
    (hfail : (∃ i, i < NUM_CHANNELS ∧ env.fileOpen i = false) ∨
      env.defaultInputDevice = paNoDevice ∨ env.paOpenStream ≠ paNoError) :
    ∃ r, main env = some r ∧ (∀ err, Effect.paStartStream err ∉ r.trace) ∧
      r.callbacks = 0 ∧ (∀ s ∈ r.channelFiles, s.isOpen = true → s.data = []) ∧
      (∀ s ∈ r.channelFiles, s.data = []) ∧ r.exitCode ≠ 0 := by
  by_cases hi : env.paInitialize = paNoError
  swap
  · exact ⟨_, main_init_fail env hi, by simp, rfl,
      (show ∀ s ∈ List.replicate NUM_CHANNELS OFStream.init, s.isOpen = true → s.data = []
        by decide),
      (show ∀ s ∈ List.replicate NUM_CHANNELS OFStream.init, s.data = [] by decide),
      (show (-1 : Int) ≠ 0 by decide)⟩
  by_cases hf : ∀ i, i < NUM_CHANNELS → env.fileOpen i = true
  swap
  · have hf' : ∃ i, i < NUM_CHANNELS ∧ env.fileOpen i = false := by
      by_contra hcon
      apply hf
      intro i hlt
      cases hfi : env.fileOpen i
      · exact absurd ⟨i, hlt, hfi⟩ hcon
      · rfl
    obtain ⟨r, hr, hx, hcb, hdata, suffix, ht, hsuf⟩ := main_open_fail env hi hf'
    refine ⟨r, hr, ?_, hcb, fun s hs _ => hdata s hs, hdata, by rw [hx]; decide⟩
    intro err hmem
    rw [ht] at hmem
    simp only [List.singleton_append, List.mem_cons] at hmem
    rcases hmem with hmem | hmem
    · cases hmem
    · have := hsuf _ hmem
      simp [Effect.isOpening] at this
  by_cases hd : env.defaultInputDevice = paNoDevice
  · exact ⟨_, main_no_device env hi hf hd, by simp, rfl,
      (show ∀ s ∈ emptySinks, s.isOpen = true → s.data = [] by decide),
      (show ∀ s ∈ emptySinks, s.data = [] by decide), (show (-1 : Int) ≠ 0 by decide)⟩
  by_cases hs : env.paOpenStream = paNoError
  swap
  · exact ⟨_, main_openStream_fail env hi hf hd hs, by simp, rfl,
      (show ∀ s ∈ emptySinks, s.isOpen = true → s.data = [] by decide),
      (show ∀ s ∈ emptySinks, s.data = [] by decide), (show (-1 : Int) ≠ 0 by decide)⟩
  rcases hfail with ⟨i, hlt, hfi⟩ | h | h
  · rw [hf i hlt] at hfi; cases hfi
  · exact absurd h hd
  · exact absurd hs h

/-- Witness of C7 on a run in which no default input device is found. -/
theorem C7_startup_failure_leaves_no_artifacts_witness :
    ∃ r, main noDeviceEnv = some r ∧ (∀ err, Effect.paStartStream err ∉ r.trace) ∧
      r.callbacks = 0 ∧ (∀ s ∈ r.channelFiles, s.isOpen = true → s.data = []) ∧
      (∀ s ∈ r.channelFiles, s.data = []) ∧ r.exitCode ≠ 0 :=
  C7_startup_failure_leaves_no_artifacts noDeviceEnv (Or.inr (Or.inl (by decide)))

/-- C8: `main` returns 0 when the run terminates cleanly (initialisation, all 4 sink opens,
device lookup, stream open, stream start and stream stop succeed), and then all sinks are
closed; `main` returns a nonzero code whenever the device is unavailable, a sink fails to
open, the stream fails to open, or the stream fails to start. -/
theorem C8_exit_code (env : Env) :
    ((env.paInitialize = paNoError ∧ (∀ i, i < NUM_CHANNELS → env.fileOpen i = true) ∧
        env.defaultInputDevice ≠ paNoDevice ∧ env.paOpenStream = paNoError ∧
        env.paStartStream = paNoError ∧ env.paStopStream = paNoError ∧
        (∀ inp ∈ env.periods, inp.length = FRAMES_PER_BUFFER * NUM_CHANNELS)) →
      ∃ r, main env = some r ∧ r.exitCode = 0 ∧ r.channelFiles.length = NUM_CHANNELS ∧
        ∀ s ∈ r.channelFiles, s.isOpen = false) ∧
    ((env.defaultInputDevice = paNoDevice ∨ (∃ i, i < NUM_CHANNELS ∧ env.fileOpen i = false) ∨
        env.paOpenStream ≠ paNoError ∨ env.paStartStream ≠ paNoError) →
      ∃ r, main env = some r ∧ r.exitCode ≠ 0) := by
  constructor
  · rintro ⟨hi, hf, hd, hs, hst, _, hper⟩
    have hwf : ∀ blk ∈ env.periods.map (fun inp => (FRAMES_PER_BUFFER, inp)),
        blk.1 * NUM_CHANNELS ≤ blk.2.length ∧ blk.1 * NUM_CHANNELS ≤ ULONG_MODULUS := by
      intro blk h
      obtain ⟨inp, hinp, rfl⟩ := List.mem_map.1 h
      have := hper inp hinp
      simp only
      refine ⟨by omega, by decide⟩
    refine ⟨_, main_run env hi hf hd hs hst _ _ _ _ _ (runCallbacks_emptySinks _ hwf), rfl,
      rfl, ?_⟩
    intro s hs
    simp only [List.mem_cons, List.mem_singleton, List.not_mem_nil, or_false] at hs
    rcases hs with h | h | h | h <;> subst h <;> rfl
  · intro hfail
    by_cases hi : env.paInitialize = paNoError
    swap
    · exact ⟨_, main_init_fail env hi, (show (-1 : Int) ≠ 0 by decide)⟩
    by_cases hf : ∀ i, i < NUM_CHANNELS → env.fileOpen i = true
    swap
    · have hf' : ∃ i, i < NUM_CHANNELS ∧ env.fileOpen i = false := by
        by_contra hcon
        apply hf
        intro i hlt
        cases hfi : env.fileOpen i
        · exact absurd ⟨i, hlt, hfi⟩ hcon
        · rfl
      obtain ⟨r, hr, hx, _⟩ := main_open_fail env hi hf'
      exact ⟨r, hr, by rw [hx]; decide⟩
    by_cases hd : env.defaultInputDevice = paNoDevice
    · exact ⟨_, main_no_device env hi hf hd, (show (-1 : Int) ≠ 0 by decide)⟩
    by_cases hs : env.paOpenStream = paNoError
    swap
    · exact ⟨_, main_openStream_fail env hi hf hd hs, (show (-1 : Int) ≠ 0 by decide)⟩
    by_cases hst : env.paStartStream = paNoError
    swap
    · exact ⟨_, main_startStream_fail env hi hf hd hs hst, (show (-1 : Int) ≠ 0 by decide)⟩
    rcases hfail with h | ⟨i, hlt, hfi⟩ | h | h
    · exact absurd h hd
    · rw [hf i hlt] at hfi; cases hfi
    · exact absurd hs h
    · exact absurd hst h

/-- Witness of C8: a clean run with one period exits with 0 and all sinks closed, a run
without input device exits with a nonzero code. -/
theorem C8_exit_code_witness :
    (∃ r, main recordingEnv = some r ∧ r.exitCode = 0 ∧ r.channelFiles.length = NUM_CHANNELS ∧
      ∀ s ∈ r.channelFiles, s.isOpen = false) ∧
    (∃ r, main noDeviceEnv = some r ∧ r.exitCode ≠ 0) :=
  ⟨(C8_exit_code recordingEnv).1
      ⟨rfl, fun _ _ => rfl, by decide, rfl, rfl, rfl, by
        intro inp h
        simp only [recordingEnv, List.mem_singleton] at h
        rw [h, List.length_replicate]
        decide⟩,
    (C8_exit_code noDeviceEnv).2 (Or.inl rfl)⟩

/-- C9 fails on the code: in a run in which everything succeeds except `Pa_StopStream`,
the failure is reported on `cerr`, the sinks are closed, and `main` returns 0. -/
theorem C9_stop_failure_exits_zero :
    stopFailEnv.paStopStream ≠ paNoError ∧
    ∃ r, main stopFailEnv = some r ∧ r.exitCode = 0 ∧
      Effect.paStopStream (-1) ∈ r.trace ∧
      Effect.cerr Message.failedToStopStream ∈ r.trace ∧
      Effect.cout Message.recordingStopped ∈ r.trace :=
  ⟨by decide, _, rfl, rfl, by decide, by decide, by decide⟩

/-- C4: starting from empty sinks, after `n` callback invocations of `F` frames each, every
one of the 4 sinks holds the bytes of exactly `n * F` samples and nothing else, that is
`n * F * sizeof(float)` bytes; for `n = 100` and `F = FRAMES_PER_BUFFER` that is 102400
bytes.  A run of `main` whose start succeeds and which receives these `n` periods of
`FRAMES_PER_BUFFER` frames ends with 4 closed files of that size. -/
theorem C4_deterministic_sizing (n F : Nat) (blocks : List (List Sample))
    (hn : blocks.length = n) (hlen : ∀ inp ∈ blocks, inp.length = F * NUM_CHANNELS)
    (hF : F * NUM_CHANNELS < ULONG_MODULUS) :
    ∃ sinks, runCallbacks (blocks.map (fun inp => (F, inp))) emptySinks = some (n, sinks) ∧
      sinks.length = NUM_CHANNELS ∧
      (∀ s ∈ sinks,
        (∃ samples : List Sample, samples.length = n * F ∧ s.data = encodeSamples samples) ∧
        s.data.length = n * F * SIZEOF_FLOAT ∧
        (n = 100 → F = FRAMES_PER_BUFFER → s.data.length = 102400)) ∧
      (∀ env : Env, env.periods = blocks → F = FRAMES_PER_BUFFER →
        env.paInitialize = paNoError → (∀ i, i < NUM_CHANNELS → env.fileOpen i = true) →
        env.defaultInputDevice ≠ paNoDevice → env.paOpenStream = paNoError →
        env.paStartStream = paNoError →
        ∃ r, main env = some r ∧ r.exitCode = 0 ∧ r.callbacks = n ∧
          r.channelFiles.length = NUM_CHANNELS ∧
          ∀ s ∈ r.channelFiles, s.isOpen = false ∧ s.data.length = n * F * SIZEOF_FLOAT) := by
  have hwf' : ∀ blk ∈ blocks.map (fun inp => (F, inp)),
      blk.1 * NUM_CHANNELS ≤ blk.2.length ∧ blk.1 * NUM_CHANNELS ≤ ULONG_MODULUS := by
    intro blk h
    obtain ⟨inp, hinp, rfl⟩ := List.mem_map.1 h
    have := hlen inp hinp
    simp only
    omega
  have hrun := runCallbacks_emptySinks _ hwf'
  rw [List.length_map, hn] at hrun
  have hbytes : ∀ c, c < NUM_CHANNELS →
      (encodeSamples ((blocks.map (fun inp => (F, inp))).flatMap
        (fun blk => channelSlice blk.2 blk.1 c))).length = n * F * SIZEOF_FLOAT := by
    intro c hc
    rw [encodeSamples_length, flatMap_channelSlice_length blocks F c hc hlen, hn]
  have key : ∀ c, c < NUM_CHANNELS → ∀ s : OFStream,
      s.data = encodeSamples
        ((blocks.map (fun inp => (F, inp))).flatMap (fun blk => channelSlice blk.2 blk.1 c)) →
      (∃ samples : List Sample, samples.length = n * F ∧ s.data = encodeSamples samples) ∧
        s.data.length = n * F * SIZEOF_FLOAT ∧
        (n = 100 → F = FRAMES_PER_BUFFER → s.data.length = 102400) := by
    intro c hc s hs
    have hl := flatMap_channelSlice_length blocks F c hc hlen
    rw [hn] at hl
    have hb : s.data.length = n * F * SIZEOF_FLOAT := by rw [hs]; exact hbytes c hc
    refine ⟨⟨_, hl, hs⟩, hb, ?_⟩
    intro h1 h2
    rw [hb, h1, h2]
    decide
  refine ⟨_, hrun, by simp [NUM_CHANNELS], ?_, ?_⟩
  · intro s hs
    simp only [List.mem_cons, List.mem_singleton, List.not_mem_nil, or_false] at hs
    rcases hs with h | h | h | h <;> subst h
    · exact key 0 (by decide) _ rfl
    · exact key 1 (by decide) _ rfl
    · exact key 2 (by decide) _ rfl
    · exact key 3 (by decide) _ rfl
  · intro env hper hFe hi hf hd hs hst
    subst hFe
    rw [← hper] at hrun
    refine ⟨_, main_run env hi hf hd hs hst _ _ _ _ _ hrun, rfl, rfl, rfl, ?_⟩
    intro s hs
    simp only [List.mem_cons, List.mem_singleton, List.not_mem_nil, or_false] at hs
    rw [← hper] at hbytes
    rcases hs with h | h | h | h <;> subst h
    · exact ⟨rfl, hbytes 0 (by decide)⟩
    · exact ⟨rfl, hbytes 1 (by decide)⟩
    · exact ⟨rfl, hbytes 2 (by decide)⟩
    · exact ⟨rfl, hbytes 3 (by decide)⟩

/-- Witness of C4: 100 invocations of 256 frames leave 102400 bytes in every sink, and a
run of `main` that receives these 100 periods ends with files of 102400 bytes. -/
theorem C4_deterministic_sizing_witness :
    (∃ sinks, runCallbacks (hundredPeriods.map (fun inp => (256, inp))) emptySinks =
        some (100, sinks) ∧ sinks.length = 4 ∧ ∀ s ∈ sinks, s.data.length = 102400) ∧
    (∃ r, main hundredPeriodsEnv = some r ∧ r.exitCode = 0 ∧ r.callbacks = 100 ∧
      r.channelFiles.length = 4 ∧
      ∀ s ∈ r.channelFiles, s.isOpen = false ∧ s.data.length = 102400) := by
  obtain ⟨sinks, hrun, hlen, hs, hmain⟩ :=
    C4_deterministic_sizing 100 256 hundredPeriods (List.length_replicate _ _)
      (by intro inp h; rw [List.eq_of_mem_replicate h, List.length_replicate]; decide)
      (by decide)
  exact ⟨⟨sinks, hrun, hlen, fun s h => (hs s h).2.2 rfl rfl⟩,
    hmain hundredPeriodsEnv rfl rfl rfl (fun _ _ => rfl) (by decide) rfl rfl⟩

end RecordMultichannel
